import Mathlib

/-!
Verification of the gotth web library against its specification.

The development shallowly embeds the parts of the repository that the
checked properties are about:

* `Gotth.Head` — the JSON-LD node encoder
  (`views/components/head/jsonld.go`).
* `Gotth.InternalHead` — the head view-model builder with functional
  options and fallback resolution
  (`internal/views/components/head/viewmodel.go`).
* `Gotth.Server` — the global-middleware composition performed by
  `WebServer.Start` (package `gotth`), and `Gotth.ServerPkg` — the
  variant of `Start` in package `server`, which ends by re-assigning
  the bare mux as the installed handler.
* `Gotth.Middlewares` — the session-check and session-invalidate
  request interceptors (package `middlewares`).

Go maps are modelled as association lists or as functions
`String → Option _`; Go `any` values are modelled by a closed inductive
covering exactly the shapes the source code inspects via type
assertions; handler code that calls callbacks (`onError`, `next`,
store operations) is modelled as a function returning the ordered list
of calls it performs.
-/

namespace Gotth.Head

/-- A dynamically typed Go (`any`) value, covering the shapes the
JSON-LD marshaler inspects: strings, `[]string`, `[]any`, and
`map[string]any` (association list, keys unique). -/
inductive AnyVal where
  | str (s : String)
  | listStr (l : List String)
  | listAny (l : List AnyVal)
  | mapAny (entries : List (String × AnyVal))

/-- `JSONLDNode` from `views/components/head/jsonld.go`: explicit
`Context` (`any`, `none` = Go `nil`), `ID` (string), `Type` (`any`),
`Graph` (`[]JSONLDNode`), and the `Properties` map (`map[string]any`,
modelled as an association list with unique keys; a `nil` map is the
empty list). Recursive through `Graph`, hence an inductive. -/
inductive JSONLDNode where
  | mk (Context : Option AnyVal) (ID : String) (TypeField : Option AnyVal)
       (Graph : List JSONLDNode) (Properties : List (String × AnyVal))

/-- Accessor for the `Context` field. -/
def JSONLDNode.Context : JSONLDNode → Option AnyVal
  | .mk c _ _ _ _ => c

/-- Accessor for the `ID` field. -/
def JSONLDNode.ID : JSONLDNode → String
  | .mk _ i _ _ _ => i

/-- Accessor for the `Type` field (named `TypeField` here because
`Type` is reserved in Lean). -/
def JSONLDNode.TypeField : JSONLDNode → Option AnyVal
  | .mk _ _ t _ _ => t

/-- Accessor for the `Graph` field. -/
def JSONLDNode.Graph : JSONLDNode → List JSONLDNode
  | .mk _ _ _ g _ => g

/-- Accessor for the `Properties` field. -/
def JSONLDNode.Properties : JSONLDNode → List (String × AnyVal)
  | .mk _ _ _ _ p => p

/-- A value stored in the output object of the marshaler: either a
dynamic value copied from a field / the properties map, or the list of
child nodes stored under `@graph` (each child is itself serialized by
`MarshalJSON` when the object is rendered to text). -/
inductive OutVal where
  | val (v : AnyVal)
  | graph (g : List JSONLDNode)

/-- The output JSON object of the marshaler, modelled as its key →
value mapping (`map[string]any` in the source; key order in the
serialized text is not semantically significant). -/
def JsonMap : Type := String → Option OutVal

/-- `make(map[string]any)`: the empty output object. -/
def emptyMap : JsonMap := fun _ => none

/-- `out[k] = v` on a Go map: overwrite-or-add one key. -/
def insertEntry (m : JsonMap) (k : String) (v : OutVal) : JsonMap :=
  fun k' => if k' = k then some v else m k'

/-- The first loop of `MarshalJSON`: copy every `Properties` entry into
the output except the four reserved JSON-LD keywords. -/
def copyProps (ps : List (String × AnyVal)) (m : JsonMap) : JsonMap :=
  ps.foldl
    (fun m kv =>
      if kv.1 ≠ "@context" ∧ kv.1 ≠ "@id" ∧ kv.1 ≠ "@type" ∧ kv.1 ≠ "@graph" then
        insertEntry m kv.1 (OutVal.val kv.2)
      else m)
    m

/-- The `@context` block of `MarshalJSON`: include the explicit context
unless it is Go `nil` or a string equal to `""`. -/
def addContext (c : Option AnyVal) (m : JsonMap) : JsonMap :=
  match c with
  | none => m
  | some cv =>
    match cv with
    | AnyVal.str "" => m
    | _ => insertEntry m "@context" (OutVal.val cv)

/-- The `@id` block of `MarshalJSON`: include the ID unless empty. -/
def addID (i : String) (m : JsonMap) : JsonMap :=
  if i ≠ "" then insertEntry m "@id" (OutVal.val (AnyVal.str i)) else m

/-- The `@type` block of `MarshalJSON`: include the explicit type
unless it is Go `nil`, a string equal to `""`, an empty `[]string`, or
an empty `[]any`. -/
def addType (t : Option AnyVal) (m : JsonMap) : JsonMap :=
  match t with
  | none => m
  | some tv =>
    match tv with
    | AnyVal.str "" => m
    | AnyVal.listStr [] => m
    | AnyVal.listAny [] => m
    | _ => insertEntry m "@type" (OutVal.val tv)

/-- The `@graph` block of `MarshalJSON`: include the child nodes when
the list is non-empty (`len(n.Graph) > 0`). -/
def addGraph (g : List JSONLDNode) (m : JsonMap) : JsonMap :=
  if 0 < g.length then insertEntry m "@graph" (OutVal.graph g) else m

/-- `JSONLDNode.MarshalJSON` from `views/components/head/jsonld.go`,
as the key → value mapping of the JSON object it produces: properties
are copied first (reserved keywords dropped), then the explicit
`@context`, `@id`, `@type`, `@graph` blocks run in source order. -/
def MarshalJSON (n : JSONLDNode) : JsonMap :=
  addGraph n.Graph (addType n.TypeField (addID n.ID (addContext n.Context
    (copyProps n.Properties emptyMap))))

/-- The four reserved JSON-LD keys handled by explicit fields. -/
def reservedKey (k : String) : Prop :=
  k = "@context" ∨ k = "@id" ∨ k = "@type" ∨ k = "@graph"

/-- The node of the specification's concrete scenario:
`Properties={"@id":"should-be-ignored","name":"A"}`, explicit
`ID="real-id"`, all other fields unset. -/
def exampleReservedNode : JSONLDNode :=
  JSONLDNode.mk none "real-id" none []
    [("@id", AnyVal.str "should-be-ignored"), ("name", AnyVal.str "A")]

end Gotth.Head

namespace Gotth.InternalHead

/-- `FontLink` from `internal/views/components/head/viewmodel.go`. -/
structure FontLink where
  Href : String
  CrossOrigin : Bool

/-- `StylesheetLink` from the same file. -/
structure StylesheetLink where
  Href : String
  Media : String
  Integrity : String
  CrossOrigin : String

/-- `ScriptLink` from the same file (`Type` renamed `TypeField`,
reserved in Lean). -/
structure ScriptLink where
  Src : String
  IsAsync : Bool
  IsDefer : Bool
  TypeField : String
  Integrity : String
  CrossOrigin : String

/-- `PageMetadata` from `internal/views/components/head/viewmodel.go`. -/
structure PageMetadata where
  Title : String
  Description : String
  URL : String
  Author : String
  Keywords : List String
  SchemaImageURL : String
  ViewPort : String
  OgURL : String
  OgTitle : String
  OgDescription : String
  OgImage : String
  OgImageWidth : String
  OgImageHeight : String
  OgImageAlt : String
  TwitterTitle : String
  TwitterDescription : String
  TwitterImage : String
  TwitterImageAlt : String

/-- `HeadViewModel` from the same file. `CustomMetaTags`
(`map[string]string`) is an association list with unique keys. -/
structure HeadViewModel where
  Name : String
  Metadata : PageMetadata
  FaviconPath : String
  FaviconType : String
  AppleTouchIconPath : String
  MsTileColor : String
  MsBrowserConfigPath : String
  MsStartURL : String
  OgType : String
  OgLocale : String
  TwitterCardType : String
  TwitterSiteHandle : String
  TwitterCreatorHandle : String
  ThemeColor : String
  AppleStatusBarColor : String
  ColorScheme : String
  IncludeHTMX : Bool
  HTMXPath : String
  IncludeHTMXPreload : Bool
  HTMXPreloadPath : String
  IncludeAlpineJS : Bool
  AlpineJSPath : String
  Fonts : List FontLink
  Stylesheets : List StylesheetLink
  HeaderScripts : List ScriptLink
  IsAnalyticsEnabled : Bool
  MeasuramentID : String
  PreparedJSONLD : String
  CustomMetaTags : List (String × String)

/-- `Option` from the source (`func(*HeadViewModel)`): a mutator,
modelled as a function on the view model. -/
def Option : Type := HeadViewModel → HeadViewModel

/-- The zero-valued `PageMetadata` (Go zero strings / nil slices). -/
def zeroPageMetadata : PageMetadata where
  Title := ""
  Description := ""
  URL := ""
  Author := ""
  Keywords := []
  SchemaImageURL := ""
  ViewPort := ""
  OgURL := ""
  OgTitle := ""
  OgDescription := ""
  OgImage := ""
  OgImageWidth := ""
  OgImageHeight := ""
  OgImageAlt := ""
  TwitterTitle := ""
  TwitterDescription := ""
  TwitterImage := ""
  TwitterImageAlt := ""

/-- The struct literal at the top of `NewHeadViewModel`: defaults set
explicitly, every other field Go-zero. -/
def initialHeadViewModel : HeadViewModel where
  Name := ""
  Metadata := { zeroPageMetadata with ViewPort := "width=device-width, initial-scale=1.0" }
  FaviconPath := ""
  FaviconType := ""
  AppleTouchIconPath := ""
  MsTileColor := ""
  MsBrowserConfigPath := ""
  MsStartURL := "/"
  OgType := "website"
  OgLocale := "en_US"
  TwitterCardType := "summary_large_image"
  TwitterSiteHandle := ""
  TwitterCreatorHandle := ""
  ThemeColor := ""
  AppleStatusBarColor := ""
  ColorScheme := ""
  IncludeHTMX := false
  HTMXPath := "/static/js/htmx.min.js"
  IncludeHTMXPreload := false
  HTMXPreloadPath := "https://unpkg.com/htmx-ext-preload@2.0.1/preload.js"
  IncludeAlpineJS := false
  AlpineJSPath := "https://cdn.jsdelivr.net/npm/alpinejs@3.x.x/dist/cdn.min.js"
  Fonts := []
  Stylesheets := []
  HeaderScripts := []
  IsAnalyticsEnabled := false
  MeasuramentID := ""
  PreparedJSONLD := ""
  CustomMetaTags := []

/-- The option-application loop of `NewHeadViewModel`:
`for _, opt := range opts { opt(&vm) }`. -/
def applyOptions (vm : HeadViewModel) (opts : List Option) : HeadViewModel :=
  opts.foldl (fun vm opt => opt vm) vm

/-- Fallback step 1: `if vm.Metadata.OgURL == "" { … = vm.Metadata.URL }`. -/
def fallbackOgURL (vm : HeadViewModel) : HeadViewModel :=
  if vm.Metadata.OgURL = "" then
    { vm with Metadata := { vm.Metadata with OgURL := vm.Metadata.URL } }
  else vm

/-- Fallback step 2: OpenGraph title from page title. -/
def fallbackOgTitle (vm : HeadViewModel) : HeadViewModel :=
  if vm.Metadata.OgTitle = "" then
    { vm with Metadata := { vm.Metadata with OgTitle := vm.Metadata.Title } }
  else vm

/-- Fallback step 3: OpenGraph description from page description. -/
def fallbackOgDescription (vm : HeadViewModel) : HeadViewModel :=
  if vm.Metadata.OgDescription = "" then
    { vm with Metadata := { vm.Metadata with OgDescription := vm.Metadata.Description } }
  else vm

/-- Fallback step 4: Twitter image from OpenGraph image. -/
def fallbackTwitterImage (vm : HeadViewModel) : HeadViewModel :=
  if vm.Metadata.TwitterImage = "" then
    { vm with Metadata := { vm.Metadata with TwitterImage := vm.Metadata.OgImage } }
  else vm

/-- Fallback step 5: Twitter image alt from OpenGraph image alt, else
synthesized from the Twitter title (`"Image for " + …`), else kept. -/
def fallbackTwitterImageAlt (vm : HeadViewModel) : HeadViewModel :=
  if vm.Metadata.TwitterImageAlt = "" ∧ vm.Metadata.OgImageAlt ≠ "" then
    { vm with Metadata := { vm.Metadata with TwitterImageAlt := vm.Metadata.OgImageAlt } }
  else if vm.Metadata.TwitterImageAlt = "" ∧ vm.Metadata.TwitterTitle ≠ "" then
    { vm with Metadata := { vm.Metadata with TwitterImageAlt := "Image for " ++ vm.Metadata.TwitterTitle } }
  else vm

/-- The post-processing block of `NewHeadViewModel`: the five fallback
assignments, in source order. -/
def resolveFallbacks (vm : HeadViewModel) : HeadViewModel :=
  fallbackTwitterImageAlt (fallbackTwitterImage (fallbackOgDescription
    (fallbackOgTitle (fallbackOgURL vm))))

/-- `NewHeadViewModel` from
`internal/views/components/head/viewmodel.go`: defaults, then the
options in caller order, then the fallback post-processing. -/
def NewHeadViewModel (opts : List Option) : HeadViewModel :=
  resolveFallbacks (applyOptions initialHeadViewModel opts)

/-- `WithPageCoreMetadata` from the same file. -/
def WithPageCoreMetadata (title description canonicalURL : String) : Option :=
  fun vm =>
    { vm with Metadata :=
        { vm.Metadata with Title := title, Description := description, URL := canonicalURL } }

/-- `WithPreparedJSONLD` from the same file. -/
def WithPreparedJSONLD (jsonLD : String) : Option :=
  fun vm => { vm with PreparedJSONLD := jsonLD }

/-- Modelled from the spec: the `JsonLD` parameter type of `WithJSONLD`
is not defined anywhere under `src/`; the spec describes this path as
the one that "serializes a JSONLDNode value directly", so we take it to
be the JSON-LD node type of `views/components/head/jsonld.go`. -/
def JsonLD : Type := Gotth.Head.JSONLDNode

/-- `WithJSONLD` from the same file. Its body in the source is the
empty function `func(hvm *HeadViewModel) {}`; the `Option` type offers
no error channel. -/
def WithJSONLD (jsonLD : JsonLD) : Option :=
  fun hvm => hvm

end Gotth.InternalHead

namespace Gotth.Server

/-- The index-based loop in `WebServer.Start` (package `gotth`):
`for i := len(mws) - 1; i >= 0; i-- { finalHandler = mws[i](finalHandler) }`.
`startLoop mws i h` runs the remaining iterations for indices
`i-1, …, 0` starting from the accumulated handler `h`; indexing uses
`getD` with an (unreachable) identity default. -/
def startLoop {H : Type} (mws : List (H → H)) : Nat → H → H
  | 0, h => h
  | i + 1, h => startLoop mws i (mws.getD i id h)

/-- The handler that `WebServer.Start` installs on the HTTP server:
the loop above applied to the full index range, starting from the mux. -/
def startHandler {H : Type} (mws : List (H → H)) (mux : H) : H :=
  startLoop mws mws.length mux

end Gotth.Server

namespace Gotth.ServerPkg

/-- The handler that the `server` package's `WebServer.Start` installs:
it runs the same reverse-order composition loop into `finalHandler` and
assigns it to the HTTP server, but the statement after the startup
print, `ws.httpServer.Handler = ws.mux`, overwrites that assignment
with the bare mux — which is therefore what is installed when
`ListenAndServe` runs. -/
def serverStartHandler {H : Type} (mws : List (H → H)) (mux : H) : H :=
  let finalHandler := Gotth.Server.startLoop mws mws.length mux
  mux

end Gotth.ServerPkg

namespace Gotth.Middlewares

/-- `SESSION_COOKIE_NAME` from package `middlewares`. -/
def SESSION_COOKIE_NAME : String := "session_id"

/-- `UserKey` from package `middlewares` (the fixed context key the
user is stored under). -/
def UserKey : String := "gotth_user_key"

/-- The session cookie as the middleware observes it: its `Value`, and
the result of `cookie.Valid()` (`none` = valid, `some msg` = the
validation error's message). -/
structure SessionCookie where
  value : String
  validErr : Option String
deriving DecidableEq

/-- An incoming request, reduced to what the two interceptors inspect:
the result of `r.Cookie(SESSION_COOKIE_NAME)` (`none` models
`http.ErrNoCookie`), and the value the request context holds under
`UserKey` (`none` models Go `nil`, i.e. key absent or nil-valued — the
two are indistinguishable through `ctx.Value`). User payloads are
opaque `any` values, modelled by `Nat`. -/
structure Request where
  cookie : Option SessionCookie
  ctxUser : Option Nat
deriving DecidableEq

/-- The errors these interceptors can hand to `onError`. -/
inductive GoError where
  | errNoCookie
  | invalidCookie (msg : String)
  | storeError (msg : String)
  | userNilError
  | invalidateFailed (e : GoError)
deriving DecidableEq

/-- The message text of each error, as produced by the source
(`http.ErrNoCookie`, `cookie.Valid()`, the store's error,
`errors.New(…)`, `fmt.Errorf("failed to invalidate session. err %w", …)`). -/
def GoError.errorString : GoError → String
  | .errNoCookie => "http: named cookie not present"
  | .invalidCookie msg => msg
  | .storeError msg => msg
  | .userNilError => "user object is nil for an authorized request"
  | .invalidateFailed e => "failed to invalidate session. err " ++ e.errorString

/-- The `SessionStore` capability: `ExchangeSessionIDForUser` returns
`(any, error)` — modelled as `Except` with a possibly-nil (`Option`)
user on success — and `InvalidateSession` returns an optional error. -/
structure SessionStore where
  exchangeSessionIDForUser : String → Except GoError (Option Nat)
  invalidateSession : Option Nat → String → Option GoError

/-- The cookie written by `http.SetCookie` in `InvalidateSession`:
field for field the literal in the source; the expiry
`time.Now().Add(-2 * time.Hour)` is recorded as an hour offset. -/
structure SetCookieData where
  name : String
  value : String
  path : String
  expiresOffsetHours : Int
  rawExpires : String
  httpOnly : Bool
  sameSiteLax : Bool
deriving DecidableEq

/-- One observable call performed by an interceptor, in order:
a store exchange, a store invalidation, an `onError` invocation, an
`http.SetCookie` write, or the `next.ServeHTTP` call (with the request
it receives). -/
inductive Effect where
  | exchangeCalled (sessionID : String)
  | invalidateCalled (user : Option Nat) (sessionID : String)
  | errorHandled (e : GoError)
  | cookieWritten (c : SetCookieData)
  | nextCalled (r : Request)
deriving DecidableEq

/-- `SessionCheck` from package `middlewares`, run on one request: the
ordered list of calls the installed handler performs. Mirrors the
source branch for branch: missing cookie, invalid cookie, and a failed
exchange all take the required/not-required branch; a successful
exchange stores the user in the context passed to `next`. -/
def sessionCheckRun (ss : SessionStore) (isSessionIDRequired : Bool)
    (r : Request) : List Effect :=
  match r.cookie with
  | none =>
    if !isSessionIDRequired then [Effect.nextCalled r]
    else [Effect.errorHandled GoError.errNoCookie]
  | some sessionCookie =>
    match sessionCookie.validErr with
    | some msg =>
      if !isSessionIDRequired then [Effect.nextCalled r]
      else [Effect.errorHandled (GoError.invalidCookie msg)]
    | none =>
      Effect.exchangeCalled sessionCookie.value ::
        match ss.exchangeSessionIDForUser sessionCookie.value with
        | Except.error e =>
          if !isSessionIDRequired then [Effect.nextCalled r]
          else [Effect.errorHandled e]
        | Except.ok user => [Effect.nextCalled { r with ctxUser := user }]

/-- `InvalidateSession` from package `middlewares`, run on one request:
missing cookie → `onError`; `GetUser` nil → `onError`; failed store
invalidation → `onError` with the wrapped error; otherwise the expiring
cookie is written and `next` runs with the request unchanged. -/
def invalidateSessionRun (ss : SessionStore) (r : Request) : List Effect :=
  match r.cookie with
  | none => [Effect.errorHandled GoError.errNoCookie]
  | some sessionCookie =>
    match r.ctxUser with
    | none => [Effect.errorHandled GoError.userNilError]
    | some u =>
      Effect.invalidateCalled (some u) sessionCookie.value ::
        match ss.invalidateSession (some u) sessionCookie.value with
        | some e => [Effect.errorHandled (GoError.invalidateFailed e)]
        | none =>
          [Effect.cookieWritten
            { name := SESSION_COOKIE_NAME
              value := sessionCookie.value
              path := "/"
              expiresOffsetHours := -2
              rawExpires := ""
              httpOnly := true
              sameSiteLax := true },
           Effect.nextCalled r]

/-- `GetUser` from package `middlewares`: the context value under
`UserKey` (`none` = Go `nil`). -/
def GetUser (r : Request) : Option Nat := r.ctxUser

/-- The errors handed to `onError` during a run, in order. -/
def onErrorCalls (t : List Effect) : List GoError :=
  t.filterMap fun e =>
    match e with
    | Effect.errorHandled er => some er
    | _ => none

/-- The requests handed to `next.ServeHTTP` during a run, in order. -/
def nextCalls (t : List Effect) : List Request :=
  t.filterMap fun e =>
    match e with
    | Effect.nextCalled r => some r
    | _ => none

/-- The `(user, sessionID)` arguments of store invalidations performed
during a run, in order. -/
def invalidateCalls (t : List Effect) : List (Option Nat × String) :=
  t.filterMap fun e =>
    match e with
    | Effect.invalidateCalled u sid => some (u, sid)
    | _ => none

/-- The cookies written to the response during a run, in order. -/
def cookieWrites (t : List Effect) : List SetCookieData :=
  t.filterMap fun e =>
    match e with
    | Effect.cookieWritten c => some c
    | _ => none

/-- A store whose exchange always fails and whose invalidation always
succeeds; used to instantiate the session-check theorems. -/
def exchangeFailStore : SessionStore where
  exchangeSessionIDForUser := fun _ => Except.error (GoError.storeError "session exchange failed")
  invalidateSession := fun _ _ => none

/-- A request carrying no session cookie and an empty context. -/
def reqNoCookie : Request where
  cookie := none
  ctxUser := none

/-- A request with a valid session cookie whose context already holds a
user under the fixed key. -/
def reqValidCookieWithUser : Request where
  cookie := some { value := "sid-1", validErr := none }
  ctxUser := some 7

/-- A request with a valid session cookie and an empty context. -/
def reqValidCookieNoUser : Request where
  cookie := some { value := "sid-2", validErr := none }
  ctxUser := none

end Gotth.Middlewares

namespace Gotth.InternalHead

/-- The Twitter-image-alt resolution rule exactly as the specification
states it, as a function of the view model at the moment the last
option has run: OpenGraph image alt when the target is empty and the
source non-empty; otherwise `"Image for " + TwitterTitle` when the
title is non-empty; otherwise the (possibly caller-set) current value. -/
def twitterAltResolved (vm : HeadViewModel) : String :=
  if vm.Metadata.TwitterImageAlt = "" ∧ vm.Metadata.OgImageAlt ≠ "" then
    vm.Metadata.OgImageAlt
  else if vm.Metadata.TwitterImageAlt = "" ∧ vm.Metadata.TwitterTitle ≠ "" then
    "Image for " ++ vm.Metadata.TwitterTitle
  else vm.Metadata.TwitterImageAlt

/-- The three fields the alt-resolution rule reads. -/
def altRuleInputs (vm : HeadViewModel) : String × String × String :=
  (vm.Metadata.TwitterImageAlt, vm.Metadata.OgImageAlt, vm.Metadata.TwitterTitle)

/-- Every field of the view model other than the five fallback targets
(`Metadata.OgURL`, `Metadata.OgTitle`, `Metadata.OgDescription`,
`Metadata.TwitterImage`, `Metadata.TwitterImageAlt`), gathered in one
tuple so that frame conditions are single equations. -/
def nonFallbackFields (vm : HeadViewModel) :=
  (vm.Name, vm.FaviconPath, vm.FaviconType, vm.AppleTouchIconPath,
   vm.MsTileColor, vm.MsBrowserConfigPath, vm.MsStartURL,
   vm.OgType, vm.OgLocale, vm.TwitterCardType, vm.TwitterSiteHandle,
   vm.TwitterCreatorHandle, vm.ThemeColor, vm.AppleStatusBarColor,
   vm.ColorScheme, vm.IncludeHTMX, vm.HTMXPath, vm.IncludeHTMXPreload,
   vm.HTMXPreloadPath, vm.IncludeAlpineJS, vm.AlpineJSPath,
   vm.Fonts, vm.Stylesheets, vm.HeaderScripts, vm.IsAnalyticsEnabled,
   vm.MeasuramentID, vm.PreparedJSONLD, vm.CustomMetaTags,
   vm.Metadata.Title, vm.Metadata.Description, vm.Metadata.URL,
   vm.Metadata.Author, vm.Metadata.Keywords, vm.Metadata.SchemaImageURL,
   vm.Metadata.ViewPort, vm.Metadata.OgImage, vm.Metadata.OgImageWidth,
   vm.Metadata.OgImageHeight, vm.Metadata.OgImageAlt,
   vm.Metadata.TwitterTitle, vm.Metadata.TwitterDescription)

/-- A sample argument for `WithJSONLD`. -/
def sampleJsonLDArg : JsonLD :=
  Gotth.Head.JSONLDNode.mk none "https://example.com/thing" none [] []

end Gotth.InternalHead

namespace Gotth.Head

theorem insertEntry_at_ne (m : JsonMap) (k : String) (v : OutVal) {k' : String}
    (h : k' ≠ k) : insertEntry m k v k' = m k' := by
  simp [insertEntry, h]

theorem insertEntry_at_self (m : JsonMap) (k : String) (v : OutVal) :
    insertEntry m k v k = some v := by
  simp [insertEntry]

theorem copyProps_reserved {k : String} (hk : reservedKey k) :
    ∀ (ps : List (String × AnyVal)) (m : JsonMap), copyProps ps m k = m k := by
  intro ps
  induction ps with
  | nil => intro m; rfl
  | cons p ps ih =>
    intro m
    show copyProps ps
      (if p.1 ≠ "@context" ∧ p.1 ≠ "@id" ∧ p.1 ≠ "@type" ∧ p.1 ≠ "@graph" then
        insertEntry m p.1 (OutVal.val p.2) else m) k = m k
    rw [ih]
    split
    · next hp =>
      refine insertEntry_at_ne _ _ _ ?_
      rcases hk with h | h | h | h <;> subst h
      · exact fun he => hp.1 he.symm
      · exact fun he => hp.2.1 he.symm
      · exact fun he => hp.2.2.1 he.symm
      · exact fun he => hp.2.2.2 he.symm
    · rfl

theorem addContext_congr (c : Option AnyVal) {m₁ m₂ : JsonMap} {k : String}
    (h : m₁ k = m₂ k) : addContext c m₁ k = addContext c m₂ k := by
  unfold addContext
  split
  · exact h
  · split
    · exact h
    · simp [insertEntry, h]

theorem addID_congr (i : String) {m₁ m₂ : JsonMap} {k : String}
    (h : m₁ k = m₂ k) : addID i m₁ k = addID i m₂ k := by
  unfold addID
  split
  · simp [insertEntry, h]
  · exact h

theorem addType_congr (t : Option AnyVal) {m₁ m₂ : JsonMap} {k : String}
    (h : m₁ k = m₂ k) : addType t m₁ k = addType t m₂ k := by
  unfold addType
  split
  · exact h
  · split
    · exact h
    · exact h
    · exact h
    · simp [insertEntry, h]

theorem addGraph_congr (g : List JSONLDNode) {m₁ m₂ : JsonMap} {k : String}
    (h : m₁ k = m₂ k) : addGraph g m₁ k = addGraph g m₂ k := by
  unfold addGraph
  split
  · simp [insertEntry, h]
  · exact h

theorem addContext_at_ne (c : Option AnyVal) (m : JsonMap) {k : String}
    (h : k ≠ "@context") : addContext c m k = m k := by
  unfold addContext
  split
  · rfl
  · split
    · rfl
    · exact insertEntry_at_ne _ _ _ h

theorem addID_at_ne (i : String) (m : JsonMap) {k : String}
    (h : k ≠ "@id") : addID i m k = m k := by
  unfold addID
  split
  · exact insertEntry_at_ne _ _ _ h
  · rfl

theorem addType_at_ne (t : Option AnyVal) (m : JsonMap) {k : String}
    (h : k ≠ "@type") : addType t m k = m k := by
  unfold addType
  split
  · rfl
  · split
    · rfl
    · rfl
    · rfl
    · exact insertEntry_at_ne _ _ _ h

theorem addGraph_at_ne (g : List JSONLDNode) (m : JsonMap) {k : String}
    (h : k ≠ "@graph") : addGraph g m k = m k := by
  unfold addGraph
  split
  · exact insertEntry_at_ne _ _ _ h
  · rfl

end Gotth.Head

namespace Gotth.Head

theorem marshal_props_irrelevant_at_reserved
    (C : Option AnyVal) (I : String) (T : Option AnyVal) (G : List JSONLDNode)
    (P : List (String × AnyVal)) {k : String} (hk : reservedKey k) :
    MarshalJSON (JSONLDNode.mk C I T G P) k = MarshalJSON (JSONLDNode.mk C I T G []) k := by
  show addGraph G (addType T (addID I (addContext C (copyProps P emptyMap)))) k
    = addGraph G (addType T (addID I (addContext C (copyProps [] emptyMap)))) k
  exact addGraph_congr G (addType_congr T (addID_congr I (addContext_congr C
    (by rw [copyProps_reserved hk, copyProps_reserved hk]))))

theorem marshal_example_eval :
    MarshalJSON exampleReservedNode
      = insertEntry (insertEntry emptyMap "name" (OutVal.val (AnyVal.str "A")))
          "@id" (OutVal.val (AnyVal.str "real-id")) := rfl

end Gotth.Head


/-- C3: the encoded JSON object's reserved keys `@context`, `@id`,
`@type` and `@graph` are sourced only from the node's explicit
`Context`, `ID`, `Type` and `Graph` fields, never from the `Properties`
mapping — at a reserved key the output is what it would be with an
empty properties mapping; in particular encoding a node with
`Properties={"@id":"should-be-ignored","name":"A"}` and explicit
`ID="real-id"` yields exactly `{"@id":"real-id","name":"A"}`. -/
theorem jsonld_reserved_keys_only_from_explicit_fields :
    (∀ (C : Option Gotth.Head.AnyVal) (I : String) (T : Option Gotth.Head.AnyVal)
       (G : List Gotth.Head.JSONLDNode) (P : List (String × Gotth.Head.AnyVal))
       (k : String), Gotth.Head.reservedKey k →
         Gotth.Head.MarshalJSON (Gotth.Head.JSONLDNode.mk C I T G P) k
           = Gotth.Head.MarshalJSON (Gotth.Head.JSONLDNode.mk C I T G []) k) ∧
    Gotth.Head.MarshalJSON Gotth.Head.exampleReservedNode "@id"
      = some (Gotth.Head.OutVal.val (Gotth.Head.AnyVal.str "real-id")) ∧
    Gotth.Head.MarshalJSON Gotth.Head.exampleReservedNode "name"
      = some (Gotth.Head.OutVal.val (Gotth.Head.AnyVal.str "A")) ∧
    (∀ k : String, k ≠ "@id" → k ≠ "name" →
      Gotth.Head.MarshalJSON Gotth.Head.exampleReservedNode k = none) := by
  refine ⟨fun C I T G P k hk => Gotth.Head.marshal_props_irrelevant_at_reserved C I T G P hk,
    rfl, rfl, fun k h1 h2 => ?_⟩
  rw [Gotth.Head.marshal_example_eval,
    Gotth.Head.insertEntry_at_ne _ _ _ h1, Gotth.Head.insertEntry_at_ne _ _ _ h2]
  rfl

/-- Witness for C3: the reserved-key independence applied at `@id` on a
concrete node carrying a conflicting `@id` property, and the absence of
`@context` in the concrete scenario's output. -/
theorem jsonld_reserved_keys_only_from_explicit_fields_witness :
    Gotth.Head.MarshalJSON
        (Gotth.Head.JSONLDNode.mk none "real-id" none []
          [("@id", Gotth.Head.AnyVal.str "x")]) "@id"
      = Gotth.Head.MarshalJSON
          (Gotth.Head.JSONLDNode.mk none "real-id" none [] []) "@id" ∧
    Gotth.Head.MarshalJSON Gotth.Head.exampleReservedNode "@context" = none :=
  ⟨jsonld_reserved_keys_only_from_explicit_fields.1 none "real-id" none []
      [("@id", Gotth.Head.AnyVal.str "x")] "@id" (Or.inr (Or.inl rfl)),
   jsonld_reserved_keys_only_from_explicit_fields.2.2.2 "@context"
      (by decide) (by decide)⟩

namespace Gotth.Head

theorem addType_str_nonempty (s : String) (hs : s ≠ "") (m : JsonMap) :
    addType (some (AnyVal.str s)) m = insertEntry m "@type" (OutVal.val (AnyVal.str s)) := by
  obtain ⟨cs⟩ := s
  cases cs with
  | nil => exact absurd rfl hs
  | cons c cs => rfl

theorem addType_listStr_nonempty (a : String) (as : List String) (m : JsonMap) :
    addType (some (AnyVal.listStr (a :: as))) m
      = insertEntry m "@type" (OutVal.val (AnyVal.listStr (a :: as))) := rfl

theorem addType_listAny_nonempty (a : AnyVal) (as : List AnyVal) (m : JsonMap) :
    addType (some (AnyVal.listAny (a :: as))) m
      = insertEntry m "@type" (OutVal.val (AnyVal.listAny (a :: as))) := rfl

theorem addType_mapAny (es : List (String × AnyVal)) (m : JsonMap) :
    addType (some (AnyVal.mapAny es)) m
      = insertEntry m "@type" (OutVal.val (AnyVal.mapAny es)) := rfl

theorem marshal_at_type (C : Option AnyVal) (I : String) (T : Option AnyVal)
    (G : List JSONLDNode) (P : List (String × AnyVal)) :
    MarshalJSON (JSONLDNode.mk C I T G P) "@type"
      = addType T (fun _ => none) "@type" := by
  show addGraph G (addType T (addID I (addContext C (copyProps P emptyMap)))) "@type"
    = addType T (fun _ => none) "@type"
  rw [addGraph_at_ne _ _ (by decide)]
  refine addType_congr T ?_
  rw [addID_at_ne _ _ (by decide), addContext_at_ne _ _ (by decide),
    copyProps_reserved (Or.inr (Or.inr (Or.inl rfl)))]
  rfl

end Gotth.Head

/-- C6: the `@type` key appears in the encoded output exactly when the
`Type` field is present and is neither the empty string, nor an empty
sequence of strings, nor an empty sequence of generic values; in
particular `Type=[]string{}` omits `@type` entirely and
`Type="Product"` emits `"@type":"Product"`. -/
theorem jsonld_type_emission :
    (∀ (C : Option Gotth.Head.AnyVal) (I : String) (T : Option Gotth.Head.AnyVal)
       (G : List Gotth.Head.JSONLDNode) (P : List (String × Gotth.Head.AnyVal)),
        Gotth.Head.MarshalJSON (Gotth.Head.JSONLDNode.mk C I T G P) "@type" ≠ none ↔
          ∃ tv, T = some tv ∧ tv ≠ Gotth.Head.AnyVal.str ""
            ∧ tv ≠ Gotth.Head.AnyVal.listStr [] ∧ tv ≠ Gotth.Head.AnyVal.listAny []) ∧
    Gotth.Head.MarshalJSON
        (Gotth.Head.JSONLDNode.mk none "" (some (Gotth.Head.AnyVal.listStr [])) [] [])
        "@type" = none ∧
    Gotth.Head.MarshalJSON
        (Gotth.Head.JSONLDNode.mk none "" (some (Gotth.Head.AnyVal.str "Product")) [] [])
        "@type"
      = some (Gotth.Head.OutVal.val (Gotth.Head.AnyVal.str "Product")) := by
  refine ⟨fun C I T G P => ?_, rfl, rfl⟩
  rw [Gotth.Head.marshal_at_type]
  rcases T with _ | tv
  · simp [Gotth.Head.addType]
  · rcases tv with s | ls | la | es
    · by_cases hs : s = ""
      · subst hs
        simp [Gotth.Head.addType]
      · rw [Gotth.Head.addType_str_nonempty s hs, Gotth.Head.insertEntry_at_self]
        simp [hs]
    · rcases ls with _ | ⟨a, as⟩
      · simp [Gotth.Head.addType]
      · rw [Gotth.Head.addType_listStr_nonempty, Gotth.Head.insertEntry_at_self]
        simp
    · rcases la with _ | ⟨a, as⟩
      · simp [Gotth.Head.addType]
      · rw [Gotth.Head.addType_listAny_nonempty, Gotth.Head.insertEntry_at_self]
        simp
    · rw [Gotth.Head.addType_mapAny, Gotth.Head.insertEntry_at_self]
      simp

namespace Gotth.InternalHead

theorem fallbackOgURL_altInputs (vm : HeadViewModel) :
    altRuleInputs (fallbackOgURL vm) = altRuleInputs vm := by
  unfold fallbackOgURL altRuleInputs
  split <;> rfl

theorem fallbackOgTitle_altInputs (vm : HeadViewModel) :
    altRuleInputs (fallbackOgTitle vm) = altRuleInputs vm := by
  unfold fallbackOgTitle altRuleInputs
  split <;> rfl

theorem fallbackOgDescription_altInputs (vm : HeadViewModel) :
    altRuleInputs (fallbackOgDescription vm) = altRuleInputs vm := by
  unfold fallbackOgDescription altRuleInputs
  split <;> rfl

theorem fallbackTwitterImage_altInputs (vm : HeadViewModel) :
    altRuleInputs (fallbackTwitterImage vm) = altRuleInputs vm := by
  unfold fallbackTwitterImage altRuleInputs
  split <;> rfl

theorem fallbackTwitterImageAlt_result (vm : HeadViewModel) :
    (fallbackTwitterImageAlt vm).Metadata.TwitterImageAlt = twitterAltResolved vm := by
  unfold fallbackTwitterImageAlt twitterAltResolved
  split_ifs <;> rfl

theorem twitterAltResolved_congr {a b : HeadViewModel}
    (h : altRuleInputs a = altRuleInputs b) :
    twitterAltResolved a = twitterAltResolved b := by
  unfold altRuleInputs at h
  simp only [Prod.mk.injEq] at h
  obtain ⟨h1, h2, h3⟩ := h
  unfold twitterAltResolved
  rw [h1, h2, h3]

theorem fallbackOgURL_frame (vm : HeadViewModel) :
    nonFallbackFields (fallbackOgURL vm) = nonFallbackFields vm := by
  unfold fallbackOgURL nonFallbackFields
  split <;> rfl

theorem fallbackOgTitle_frame (vm : HeadViewModel) :
    nonFallbackFields (fallbackOgTitle vm) = nonFallbackFields vm := by
  unfold fallbackOgTitle nonFallbackFields
  split <;> rfl

theorem fallbackOgDescription_frame (vm : HeadViewModel) :
    nonFallbackFields (fallbackOgDescription vm) = nonFallbackFields vm := by
  unfold fallbackOgDescription nonFallbackFields
  split <;> rfl

theorem fallbackTwitterImage_frame (vm : HeadViewModel) :
    nonFallbackFields (fallbackTwitterImage vm) = nonFallbackFields vm := by
  unfold fallbackTwitterImage nonFallbackFields
  split <;> rfl

theorem fallbackTwitterImageAlt_frame (vm : HeadViewModel) :
    nonFallbackFields (fallbackTwitterImageAlt vm) = nonFallbackFields vm := by
  unfold fallbackTwitterImageAlt nonFallbackFields
  split_ifs <;> rfl

end Gotth.InternalHead

/-- C1 (code bug): `WithJSONLD` silently discards its input — for every
JSON-LD node argument, applying the option leaves the view model
unchanged, and the result of building with the option equals the result
of building without it, while no error is surfaced (the `Option` type
has no error channel at all). -/
theorem withJSONLD_silently_discards_input :
    ∀ (n : Gotth.InternalHead.JsonLD) (vm : Gotth.InternalHead.HeadViewModel),
      Gotth.InternalHead.WithJSONLD n vm = vm ∧
      Gotth.InternalHead.NewHeadViewModel [Gotth.InternalHead.WithJSONLD n]
        = Gotth.InternalHead.NewHeadViewModel [] :=
  fun _ _ => ⟨rfl, rfl⟩

/-- C4: building with the single option
`WithPageCoreMetadata("T","D","/u")` resolves to `OgTitle="T"`,
`OgDescription="D"`, `OgURL="/u"` and `TwitterImage=""`. -/
theorem newHeadViewModel_core_metadata_scenario :
    (Gotth.InternalHead.NewHeadViewModel
        [Gotth.InternalHead.WithPageCoreMetadata "T" "D" "/u"]).Metadata.OgTitle = "T" ∧
    (Gotth.InternalHead.NewHeadViewModel
        [Gotth.InternalHead.WithPageCoreMetadata "T" "D" "/u"]).Metadata.OgDescription = "D" ∧
    (Gotth.InternalHead.NewHeadViewModel
        [Gotth.InternalHead.WithPageCoreMetadata "T" "D" "/u"]).Metadata.OgURL = "/u" ∧
    (Gotth.InternalHead.NewHeadViewModel
        [Gotth.InternalHead.WithPageCoreMetadata "T" "D" "/u"]).Metadata.TwitterImage = "" :=
  ⟨rfl, rfl, rfl, rfl⟩

/-- C5: for every option sequence, the resolved Twitter image alt is:
the OpenGraph image alt when the caller left the alt empty and the
OpenGraph alt is non-empty; otherwise `"Image for " + TwitterTitle`
when the alt is empty and the Twitter title is non-empty; otherwise the
value left by the options — all read at the moment the last option
finished running. -/
theorem newHeadViewModel_twitter_image_alt_resolution :
    ∀ opts : List Gotth.InternalHead.Option,
      (Gotth.InternalHead.NewHeadViewModel opts).Metadata.TwitterImageAlt
        = Gotth.InternalHead.twitterAltResolved
            (Gotth.InternalHead.applyOptions Gotth.InternalHead.initialHeadViewModel opts) := by
  intro opts
  show (Gotth.InternalHead.resolveFallbacks _).Metadata.TwitterImageAlt = _
  unfold Gotth.InternalHead.resolveFallbacks
  rw [Gotth.InternalHead.fallbackTwitterImageAlt_result]
  exact Gotth.InternalHead.twitterAltResolved_congr
    (by rw [Gotth.InternalHead.fallbackTwitterImage_altInputs,
      Gotth.InternalHead.fallbackOgDescription_altInputs,
      Gotth.InternalHead.fallbackOgTitle_altInputs,
      Gotth.InternalHead.fallbackOgURL_altInputs])

/-- C10: the post-processing fallback resolution can change only the
five fallback targets — every other field of the returned view model
(including `Metadata.Title`, `Metadata.Description`, `Metadata.URL`,
all defaults and all sequence fields) equals its value at the moment
the last option finished running. -/
theorem newHeadViewModel_fallback_frame :
    ∀ opts : List Gotth.InternalHead.Option,
      Gotth.InternalHead.nonFallbackFields (Gotth.InternalHead.NewHeadViewModel opts)
        = Gotth.InternalHead.nonFallbackFields
            (Gotth.InternalHead.applyOptions Gotth.InternalHead.initialHeadViewModel opts) := by
  intro opts
  show Gotth.InternalHead.nonFallbackFields (Gotth.InternalHead.resolveFallbacks _) = _
  unfold Gotth.InternalHead.resolveFallbacks
  rw [Gotth.InternalHead.fallbackTwitterImageAlt_frame,
    Gotth.InternalHead.fallbackTwitterImage_frame,
    Gotth.InternalHead.fallbackOgDescription_frame,
    Gotth.InternalHead.fallbackOgTitle_frame,
    Gotth.InternalHead.fallbackOgURL_frame]

namespace Gotth.Server

theorem startLoop_append {H : Type} (l : List (H → H)) (m : H → H) :
    ∀ (i : Nat), i ≤ l.length → ∀ (h : H), startLoop (l ++ [m]) i h = startLoop l i h := by
  intro i
  induction i with
  | zero => intro _ h; rfl
  | succ i ih =>
    intro hle h
    show startLoop (l ++ [m]) i ((l ++ [m]).getD i id h) = startLoop l i (l.getD i id h)
    rw [List.getD_append _ _ _ _ (Nat.lt_of_succ_le hle)]
    exact ih (Nat.le_of_succ_le hle) _

theorem startHandler_concat {H : Type} (l : List (H → H)) (m : H → H) (mux : H) :
    startHandler (l ++ [m]) mux = startHandler l (m mux) := by
  unfold startHandler
  rw [List.length_append, List.length_singleton]
  show startLoop (l ++ [m]) l.length ((l ++ [m]).getD l.length id mux) = _
  rw [List.getD_append_right _ _ _ _ (Nat.le_refl _), Nat.sub_self]
  exact startLoop_append l m l.length (Nat.le_refl _) (m mux)

theorem startHandler_eq_foldr {H : Type} (mws : List (H → H)) (mux : H) :
    startHandler mws mux = mws.foldr (fun m h => m h) mux := by
  induction mws using List.reverseRecOn generalizing mux with
  | nil => rfl
  | append_singleton l m ih =>
    rw [startHandler_concat, List.foldr_append, ih]
    rfl

end Gotth.Server

/-- C2 (code bug): the claim holds for package `gotth`'s
`WebServer.Start`, whose installed handler is `m1 (m2 (… (mn mux)))`,
but the claim's other cited implementation, the `server` package's
`WebServer.Start`, overwrites the composed chain with the bare mux
(`ws.httpServer.Handler = ws.mux`, the statement after the startup
print) before serving: its installed handler equals the mux for every
middleware list, so with one middleware `m1 ≠ id` (here `Nat.succ` on
a `Nat` handler state, mux `0`) it is `0` while the claimed composition
`m1 (mux)` is `1`. -/
theorem start_middleware_chain_overwritten_by_mux :
    (∀ {H : Type} (mws : List (H → H)) (mux : H),
        Gotth.Server.startHandler mws mux = mws.foldr (fun m h => m h) mux) ∧
    (∀ {H : Type} (mws : List (H → H)) (mux : H),
        Gotth.ServerPkg.serverStartHandler mws mux = mux) ∧
    Gotth.ServerPkg.serverStartHandler [fun n => n + 1] (0 : Nat) = 0 ∧
    ([fun n => n + 1] : List (Nat → Nat)).foldr (fun m h => m h) (0 : Nat) = 1 :=
  ⟨fun mws mux => Gotth.Server.startHandler_eq_foldr mws mux,
   fun _ _ => rfl, rfl, rfl⟩

/-- C7: with `required=true` and no session cookie on the request, the
session-check interceptor invokes `onError` exactly once, with the
missing-cookie error, and never invokes the next handler. -/
theorem sessionCheck_required_missing_cookie :
    ∀ (ss : Gotth.Middlewares.SessionStore) (r : Gotth.Middlewares.Request),
      r.cookie = none →
        Gotth.Middlewares.onErrorCalls (Gotth.Middlewares.sessionCheckRun ss true r)
          = [Gotth.Middlewares.GoError.errNoCookie] ∧
        Gotth.Middlewares.nextCalls (Gotth.Middlewares.sessionCheckRun ss true r) = [] := by
  intro ss r h
  simp [Gotth.Middlewares.sessionCheckRun, h,
    Gotth.Middlewares.onErrorCalls, Gotth.Middlewares.nextCalls]

/-- Witness for C7: the theorem applied to a concrete store and a
concrete cookie-less request. -/
theorem sessionCheck_required_missing_cookie_witness :
    Gotth.Middlewares.onErrorCalls
        (Gotth.Middlewares.sessionCheckRun Gotth.Middlewares.exchangeFailStore true
          Gotth.Middlewares.reqNoCookie)
      = [Gotth.Middlewares.GoError.errNoCookie] ∧
    Gotth.Middlewares.nextCalls
        (Gotth.Middlewares.sessionCheckRun Gotth.Middlewares.exchangeFailStore true
          Gotth.Middlewares.reqNoCookie) = [] :=
  sessionCheck_required_missing_cookie Gotth.Middlewares.exchangeFailStore
    Gotth.Middlewares.reqNoCookie rfl

/-- Counterexample for C8 as stated: a request whose valid session
cookie fails the store exchange, but whose incoming context already
holds a user under the fixed key; with `required=false` the next
handler is invoked once with that request unchanged, so its context
does contain a user — the claim's "contains no user" clause is false
for this request, even though the middleware added none. -/
theorem sessionCheck_optional_exchange_fail_user_counterexample :
    Gotth.Middlewares.reqValidCookieWithUser.cookie
      = some { value := "sid-1", validErr := none } ∧
    Gotth.Middlewares.exchangeFailStore.exchangeSessionIDForUser "sid-1"
      = Except.error (Gotth.Middlewares.GoError.storeError "session exchange failed") ∧
    Gotth.Middlewares.onErrorCalls
        (Gotth.Middlewares.sessionCheckRun Gotth.Middlewares.exchangeFailStore false
          Gotth.Middlewares.reqValidCookieWithUser) = [] ∧
    Gotth.Middlewares.nextCalls
        (Gotth.Middlewares.sessionCheckRun Gotth.Middlewares.exchangeFailStore false
          Gotth.Middlewares.reqValidCookieWithUser)
      = [Gotth.Middlewares.reqValidCookieWithUser] ∧
    Gotth.Middlewares.GetUser Gotth.Middlewares.reqValidCookieWithUser = some 7 :=
  ⟨rfl, rfl, rfl, rfl, rfl⟩

/-- C8 (amended): for every request with a valid session cookie whose
store exchange fails, the interceptor with `required=false` invokes
the next handler exactly once with the request passed through
unchanged, and never invokes `onError`; in particular the middleware
stores no user, so the next handler's context holds a user under the
fixed key only if the incoming request's context already did. -/
theorem sessionCheck_optional_exchange_fail_passthrough :
    ∀ (ss : Gotth.Middlewares.SessionStore) (r : Gotth.Middlewares.Request)
      (c : Gotth.Middlewares.SessionCookie) (e : Gotth.Middlewares.GoError),
      r.cookie = some c → c.validErr = none →
      ss.exchangeSessionIDForUser c.value = Except.error e →
        Gotth.Middlewares.onErrorCalls (Gotth.Middlewares.sessionCheckRun ss false r) = [] ∧
        Gotth.Middlewares.nextCalls (Gotth.Middlewares.sessionCheckRun ss false r) = [r] := by
  intro ss r c e hc hv he
  simp [Gotth.Middlewares.sessionCheckRun, hc, hv, he,
    Gotth.Middlewares.onErrorCalls, Gotth.Middlewares.nextCalls]

/-- Witness for the amended C8: a concrete failing store and a concrete
request with a valid cookie and an empty context. -/
theorem sessionCheck_optional_exchange_fail_passthrough_witness :
    Gotth.Middlewares.onErrorCalls
        (Gotth.Middlewares.sessionCheckRun Gotth.Middlewares.exchangeFailStore false
          Gotth.Middlewares.reqValidCookieNoUser) = [] ∧
    Gotth.Middlewares.nextCalls
        (Gotth.Middlewares.sessionCheckRun Gotth.Middlewares.exchangeFailStore false
          Gotth.Middlewares.reqValidCookieNoUser)
      = [Gotth.Middlewares.reqValidCookieNoUser] :=
  sessionCheck_optional_exchange_fail_passthrough Gotth.Middlewares.exchangeFailStore
    Gotth.Middlewares.reqValidCookieNoUser { value := "sid-2", validErr := none }
    (Gotth.Middlewares.GoError.storeError "session exchange failed") rfl rfl rfl

/-- C9: for every request that carries a valid session cookie but whose
context holds no user under the fixed key, the invalidate interceptor
invokes `onError` once with the "user object is nil for an authorized
request" condition, never calls the store's invalidate operation, never
invokes the next handler, and writes no cookie to the response. -/
theorem invalidateSession_nil_user :
    ∀ (ss : Gotth.Middlewares.SessionStore) (r : Gotth.Middlewares.Request)
      (c : Gotth.Middlewares.SessionCookie),
      r.cookie = some c → c.validErr = none → Gotth.Middlewares.GetUser r = none →
        Gotth.Middlewares.onErrorCalls (Gotth.Middlewares.invalidateSessionRun ss r)
          = [Gotth.Middlewares.GoError.userNilError] ∧
        Gotth.Middlewares.GoError.userNilError.errorString
          = "user object is nil for an authorized request" ∧
        Gotth.Middlewares.invalidateCalls (Gotth.Middlewares.invalidateSessionRun ss r) = [] ∧
        Gotth.Middlewares.nextCalls (Gotth.Middlewares.invalidateSessionRun ss r) = [] ∧
        Gotth.Middlewares.cookieWrites (Gotth.Middlewares.invalidateSessionRun ss r) = [] := by
  intro ss r c hc hv hu
  have hu' : r.ctxUser = none := hu
  simp [Gotth.Middlewares.invalidateSessionRun, hc, hu',
    Gotth.Middlewares.onErrorCalls, Gotth.Middlewares.nextCalls,
    Gotth.Middlewares.invalidateCalls, Gotth.Middlewares.cookieWrites,
    Gotth.Middlewares.GoError.errorString]

/-- Witness for C9: the theorem applied to a concrete store and a
concrete request with a valid cookie and no user in its context. -/
theorem invalidateSession_nil_user_witness :
    Gotth.Middlewares.onErrorCalls
        (Gotth.Middlewares.invalidateSessionRun Gotth.Middlewares.exchangeFailStore
          Gotth.Middlewares.reqValidCookieNoUser)
      = [Gotth.Middlewares.GoError.userNilError] ∧
    Gotth.Middlewares.GoError.userNilError.errorString
      = "user object is nil for an authorized request" ∧
    Gotth.Middlewares.invalidateCalls
        (Gotth.Middlewares.invalidateSessionRun Gotth.Middlewares.exchangeFailStore
          Gotth.Middlewares.reqValidCookieNoUser) = [] ∧
    Gotth.Middlewares.nextCalls
        (Gotth.Middlewares.invalidateSessionRun Gotth.Middlewares.exchangeFailStore
          Gotth.Middlewares.reqValidCookieNoUser) = [] ∧
    Gotth.Middlewares.cookieWrites
        (Gotth.Middlewares.invalidateSessionRun Gotth.Middlewares.exchangeFailStore
          Gotth.Middlewares.reqValidCookieNoUser) = [] :=
  invalidateSession_nil_user Gotth.Middlewares.exchangeFailStore
    Gotth.Middlewares.reqValidCookieNoUser { value := "sid-2", validErr := none } rfl rfl rfl
